import Mathlib

/-!
Shallow embedding of the piecewise polynomial interpolation engine of
`src/main.rs` (struct `Point`, enum `SplineType`, struct `Spline` with
`Spline::new` and `Spline::evaluate`).

Modelling conventions:
* the Rust code computes over `f32`; real arithmetic is modelled exactly by
  the rationals `ℚ`, so equalities that hold "within floating-point
  tolerance" are stated exactly;
* the three `panic!` sites of `Spline::new` become the three construction
  failures named by the specification (`InsufficientPoints`,
  `DegenerateKnotSpacing`, `SingularSystem`), and `Spline::new` returns an
  `Except` value;
* `Vec` indexing becomes `List.getD` (every read proved in bounds is the
  Rust read); loops over indices become primitive recursions on `ℕ`.
-/

/-- The 2-D control point of the source (`struct Point { x: f32, y: f32 }`). -/
structure Point where
  x : ℚ
  y : ℚ
deriving DecidableEq, Inhabited

/-- Constructor `Point::new`. -/
def Point.new (x y : ℚ) : Point := ⟨x, y⟩

/-- The interpolation model of the source (`enum SplineType`). -/
inductive SplineType where
  | Linear
  | Quadratic
  | Cubic
deriving DecidableEq

/-- The three construction failures: the specification's error taxonomy for
the three `panic!` sites of `Spline::new` (lines 35, 48 and 110 of the
source). -/
inductive SplineError where
  | InsufficientPoints
  | DegenerateKnotSpacing
  | SingularSystem
deriving DecidableEq

/-- The fitted curve of the source (`struct Spline`): sorted points plus the
per-segment coefficient vectors. -/
structure Spline where
  points : List Point
  spline_type : SplineType
  a_coeffs : List ℚ
  b_coeffs : List ℚ
  c_coeffs : List ℚ
  d_coeffs : List ℚ
deriving DecidableEq

/-- The x-coordinate of entry `i` of a point list (`points[i].x`). -/
def xc (l : List Point) (i : ℕ) : ℚ := (l.getD i default).x

/-- The y-coordinate of entry `i` of a point list (`points[i].y`). -/
def yc (l : List Point) (i : ℕ) : ℚ := (l.getD i default).y

/-- Knot spacing `h[i] = x_coords[i+1] - x_coords[i]` (source line 46). -/
def hfun (x : ℕ → ℚ) (i : ℕ) : ℚ := x (i + 1) - x i

/-- The stable ascending sort by x of `Spline::new` (source line 38,
`sorted_points.sort_by(|a, b| a.x.partial_cmp(&b.x).unwrap())`). -/
def sortPoints (pts : List Point) : List Point :=
  pts.mergeSort (fun a b => decide (a.x ≤ b.x))

/-- Linear model: `b_coeffs[i] = (a_coeffs[i+1] - a_coeffs[i]) / h[i]`
(source line 60). -/
def linB (x y : ℕ → ℚ) (i : ℕ) : ℚ := (y (i + 1) - y i) / hfun x i

/-- Quadratic model: the pair `(b_coeffs[i], c_coeffs[i])` produced by the
running recurrence of source lines 63-91.  Index 0 is the initialisation of
lines 65-68 (the vectors start at 0 when `h[0] = 0`, which construction
rules out); index `i+1` is iteration `i` of the loop at lines 70-85 (its
two in-bounds guards always hold for indices below `n-1`, the vector
length, so they are not repeated here; the redundant `n == 2` special case
of lines 87-90 rewrites the same values and is omitted). -/
def quadBC (x y : ℕ → ℚ) : ℕ → ℚ × ℚ
  | 0 => (if hfun x 0 = 0 then 0 else (y 1 - y 0) / hfun x 0, 0)
  | i + 1 =>
    let p := quadBC x y i
    let nb := if hfun x i = 0 then 0 else p.1 + 2 * p.2 * hfun x i
    let nc := if hfun x (i + 1) = 0 then 0
      else (y (i + 2) - y (i + 1) - nb * hfun x (i + 1)) / (hfun x (i + 1) * hfun x (i + 1))
    (nb, nc)

/-- Cubic model: `alpha[i]` of source line 98, read only at `1 ≤ i ≤ n-2`
(the loop range where the source assigns it). -/
def alphafun (x y : ℕ → ℚ) (i : ℕ) : ℚ :=
  3 * ((y (i + 1) - y i) / hfun x i - (y i - y (i - 1)) / hfun x (i - 1))

/-- Cubic model forward sweep: `(l[i], mu[i], z[i])` of source lines
101-114.  Index 0 is the initialisation `l[0] = 1`, `mu[0] = z[0] = 0`;
index `i+1` is loop iteration `i+1` of lines 107-114.  The source reads
these only at indices `0..n-2`. -/
def fwd (x y : ℕ → ℚ) : ℕ → ℚ × ℚ × ℚ
  | 0 => (1, 0, 0)
  | i + 1 =>
    let p := fwd x y i
    let li := 2 * (x (i + 2) - x i) - hfun x i * p.2.1
    (li, hfun x (i + 1) / li, (alphafun x y (i + 1) - hfun x i * p.2.2) / li)

/-- Cubic model backward sweep (source lines 118-124), indexed by distance
from the top: `cIntAux x y n k` is `c_internal[n - 1 - k]`, starting from
`c_internal[n-1] = 0` (the untouched initial value, the natural boundary
condition). -/
def cIntAux (x y : ℕ → ℚ) (n : ℕ) : ℕ → ℚ
  | 0 => 0
  | k + 1 =>
    (fwd x y (n - 1 - (k + 1))).2.2 - (fwd x y (n - 1 - (k + 1))).2.1 * cIntAux x y n k

/-- Cubic model: `c_internal[j]` of source line 119. -/
def cInt (x y : ℕ → ℚ) (n j : ℕ) : ℚ := cIntAux x y n (n - 1 - j)

/-- Cubic model: `b_coeffs[j]` of source line 122. -/
def cubB (x y : ℕ → ℚ) (n j : ℕ) : ℚ :=
  (y (j + 1) - y j) / hfun x j - hfun x j * (cInt x y n (j + 1) + 2 * cInt x y n j) / 3

/-- Cubic model: `d_coeffs[j]` of source line 123. -/
def cubD (x y : ℕ → ℚ) (n j : ℕ) : ℚ :=
  (cInt x y n (j + 1) - cInt x y n j) / (3 * hfun x j)

/-- The `Spline` value returned for the Linear model (coefficient vectors of
source lines 52-62: `a_coeffs` is the sorted y list, `c` and `d` stay 0). -/
def buildLinear (sorted : List Point) : Spline :=
  ⟨sorted, SplineType.Linear, sorted.map Point.y,
    List.ofFn (fun i : Fin (sorted.length - 1) => linB (xc sorted) (yc sorted) i),
    List.ofFn (fun _ : Fin (sorted.length - 1) => 0),
    List.ofFn (fun _ : Fin (sorted.length - 1) => 0)⟩

/-- The `Spline` value returned for the Quadratic model (source lines
63-91; `d` stays 0). -/
def buildQuadratic (sorted : List Point) : Spline :=
  ⟨sorted, SplineType.Quadratic, sorted.map Point.y,
    List.ofFn (fun i : Fin (sorted.length - 1) => (quadBC (xc sorted) (yc sorted) i).1),
    List.ofFn (fun i : Fin (sorted.length - 1) => (quadBC (xc sorted) (yc sorted) i).2),
    List.ofFn (fun _ : Fin (sorted.length - 1) => 0)⟩

/-- The `Spline` value returned for the Cubic model (source lines 93-125). -/
def buildCubic (sorted : List Point) : Spline :=
  ⟨sorted, SplineType.Cubic, sorted.map Point.y,
    List.ofFn (fun i : Fin (sorted.length - 1) => cubB (xc sorted) (yc sorted) sorted.length i),
    List.ofFn (fun i : Fin (sorted.length - 1) => cInt (xc sorted) (yc sorted) sorted.length i),
    List.ofFn (fun i : Fin (sorted.length - 1) => cubD (xc sorted) (yc sorted) sorted.length i)⟩

/-- `Spline::new` (source lines 33-136).  The `points.len() < 2` check is
line 34; the zero-spacing check over `h[0..n-2]` is lines 44-50; the cubic
zero-pivot check over `l[1..n-2]` is lines 107-111 (written with the pivot
index shifted by one so that the bound matches the loop range `1..n-1`);
otherwise the sorted points and the model's coefficient vectors are
returned. -/
def Spline.new (points : List Point) (t : SplineType) : Except SplineError Spline :=
  if points.length < 2 then Except.error SplineError.InsufficientPoints
  else
    let sorted := sortPoints points
    if (List.range (sorted.length - 1)).any (fun i => decide (hfun (xc sorted) i = 0)) then
      Except.error SplineError.DegenerateKnotSpacing
    else
      match t with
      | SplineType.Linear => Except.ok (buildLinear sorted)
      | SplineType.Quadratic => Except.ok (buildQuadratic sorted)
      | SplineType.Cubic =>
        if (List.range (sorted.length - 2)).any
            (fun i => decide ((fwd (xc sorted) (yc sorted) (i + 1)).1 = 0)) then
          Except.error SplineError.SingularSystem
        else Except.ok (buildCubic sorted)

/-- The segment-selection scan of `Spline::evaluate` (source lines 146-149):
`while i < points.len() - 2 && x > points[i+1].x { i += 1 }`.  `fuel` bounds
the iteration count; the loop body runs at most `points.len() - 2` times, so
any fuel of at least `points.len()` is exact. -/
def findSegAux (pts : List Point) (x : ℚ) : ℕ → ℕ → ℕ
  | 0, i => i
  | fuel + 1, i =>
    if i < pts.length - 2 ∧ xc pts (i + 1) < x then findSegAux pts x fuel (i + 1)
    else i

/-- `Spline::evaluate` (source lines 138-191), translated branch for branch.
The nested early-return shape of the two extrapolation branches is written
as one conjunction each (falling through to the flat value when any inner
test fails, exactly as the source does). -/
def Spline.evaluate (s : Spline) (x : ℚ) : ℚ :=
  if s.points.length = 0 then 0
  else if s.points.length = 1 then yc s.points 0
  else
    let i := findSegAux s.points x s.points.length 0
    if x < xc s.points 0 then
      if s.spline_type = SplineType.Linear ∧ s.b_coeffs ≠ [] then
        s.a_coeffs.getD 0 0 + s.b_coeffs.getD 0 0 * (x - xc s.points 0)
      else s.a_coeffs.getD 0 0
    else if xc s.points (s.points.length - 1) < x then
      if s.spline_type = SplineType.Linear ∧ s.points.length - 2 < s.b_coeffs.length ∧
          xc s.points (s.points.length - 2 + 1) - xc s.points (s.points.length - 2) ≠ 0 then
        s.a_coeffs.getD (s.points.length - 2 + 1) 0 +
          s.b_coeffs.getD (s.points.length - 2) 0 * (x - xc s.points (s.points.length - 2 + 1))
      else s.a_coeffs.getD (s.points.length - 1) 0
    else if x = xc s.points (s.points.length - 1) then
      s.a_coeffs.getD (s.points.length - 1) 0
    else
      let dx := x - xc s.points i
      s.a_coeffs.getD i 0 +
        (if i < s.b_coeffs.length then s.b_coeffs.getD i 0 * dx else 0) +
        (if (s.spline_type = SplineType.Quadratic ∨ s.spline_type = SplineType.Cubic) ∧
            i < s.c_coeffs.length then s.c_coeffs.getD i 0 * dx * dx else 0) +
        (if s.spline_type = SplineType.Cubic ∧ i < s.d_coeffs.length then
          s.d_coeffs.getD i 0 * dx * dx * dx else 0)

/-- Segment `j`'s polynomial `a[j] + b[j]·dx + c[j]·dx² + d[j]·dx³` with
`dx = t - knots[j].x` (the polynomial the in-range branch of
`Spline::evaluate` computes for the Cubic model). -/
def segPoly (s : Spline) (j : ℕ) (t : ℚ) : ℚ :=
  s.a_coeffs.getD j 0 + s.b_coeffs.getD j 0 * (t - xc s.points j) +
    s.c_coeffs.getD j 0 * (t - xc s.points j) ^ 2 +
    s.d_coeffs.getD j 0 * (t - xc s.points j) ^ 3

/-- First derivative of segment `j`'s polynomial. -/
def segPolyD1 (s : Spline) (j : ℕ) (t : ℚ) : ℚ :=
  s.b_coeffs.getD j 0 + 2 * s.c_coeffs.getD j 0 * (t - xc s.points j) +
    3 * s.d_coeffs.getD j 0 * (t - xc s.points j) ^ 2

/-- Second derivative of segment `j`'s polynomial. -/
def segPolyD2 (s : Spline) (j : ℕ) (t : ℚ) : ℚ :=
  2 * s.c_coeffs.getD j 0 + 6 * s.d_coeffs.getD j 0 * (t - xc s.points j)

/-- Modelled from the spec: the straight line through two knots, the value
the Linear model is specified to produce strictly inside a segment. -/
def lineThrough (p q : Point) (t : ℚ) : ℚ := p.y + (q.y - p.y) * (t - p.x) / (q.x - p.x)

/-- The default control-point set of the source (lines 215-221), used by
the spec's concrete scenarios A and B. -/
def scenePts : List Point :=
  [⟨-300, 0⟩, ⟨-150, 100⟩, ⟨0, -100⟩, ⟨150, 100⟩, ⟨300, 0⟩]

/-- The out-of-order point list of the spec's concrete scenario C. -/
def scene3 : List Point := [⟨0, 5⟩, ⟨-10, 1⟩, ⟨10, 9⟩]

/-- Extract the curve from a successful build (placeholder curve
otherwise); used only to name concrete built splines. -/
def getOk (e : Except SplineError Spline) : Spline :=
  match e with
  | Except.ok s => s
  | Except.error _ => ⟨[], SplineType.Linear, [], [], [], []⟩

/-- The curve built from the scene points with the Cubic model. -/
def sceneCubic : Spline := getOk (Spline.new scenePts SplineType.Cubic)

/-- The curve built from the scene points with the Linear model. -/
def sceneLinear : Spline := getOk (Spline.new scenePts SplineType.Linear)

/-- The curve built from the scene points with the Quadratic model. -/
def sceneQuad : Spline := getOk (Spline.new scenePts SplineType.Quadratic)

instance {e a : Type} [DecidableEq e] [DecidableEq a] : DecidableEq (Except e a) :=
  fun u v =>
    match u, v with
    | Except.ok x, Except.ok y => decidable_of_iff (x = y) (by simp)
    | Except.error x, Except.error y => decidable_of_iff (x = y) (by simp)
    | Except.ok _, Except.error _ => isFalse (by simp)
    | Except.error _, Except.ok _ => isFalse (by simp)

/-! Basic access lemmas for the coefficient vectors. -/

theorem getD_map_y (l : List Point) (i : ℕ) : (l.map Point.y).getD i 0 = yc l i := by
  simp only [yc, List.getD_eq_getElem?_getD, List.getElem?_map]
  cases h : l[i]? with
  | none => rfl
  | some p => rfl

theorem getD_ofFn {m : ℕ} (f : Fin m → ℚ) (i : ℕ) (h : i < m) :
    (List.ofFn f).getD i 0 = f ⟨i, h⟩ := by
  have h' : i < (List.ofFn f).length := by simpa using h
  rw [List.getD_eq_getElem?_getD, List.getElem?_eq_getElem h', List.getElem_ofFn]
  rfl

theorem xc_eq_get {l : List Point} {i : ℕ} (h : i < l.length) :
    xc l i = (l.get ⟨i, h⟩).x := by
  simp [xc, List.getD_eq_getElem?_getD, List.getElem?_eq_getElem h]

/-! Sortedness of `sortPoints` and consequences. -/

theorem sortPoints_perm (pts : List Point) : (sortPoints pts).Perm pts :=
  List.mergeSort_perm pts _

theorem sortPoints_length (pts : List Point) : (sortPoints pts).length = pts.length :=
  (sortPoints_perm pts).length_eq

theorem sortPoints_pairwise_le (pts : List Point) :
    (sortPoints pts).Pairwise (fun a b => a.x ≤ b.x) := by
  have h := @List.sorted_mergeSort Point
    (fun a b : Point => decide (a.x ≤ b.x))
    (fun a b c hab hbc => by
      simp only [decide_eq_true_eq] at hab hbc ⊢
      exact le_trans hab hbc)
    (fun a b => by
      simp only [Bool.or_eq_true, decide_eq_true_eq]
      exact le_total a.x b.x)
    pts
  exact h.imp (fun hab => by simpa using hab)

theorem xc_le_succ {pts : List Point} {i : ℕ} (h : i + 1 < (sortPoints pts).length) :
    xc (sortPoints pts) i ≤ xc (sortPoints pts) (i + 1) := by
  have hp := (List.pairwise_iff_getElem).1 (sortPoints_pairwise_le pts)
  have := hp i (i + 1) (by omega) h (by omega)
  rw [xc_eq_get (by omega : i < (sortPoints pts).length), xc_eq_get h]
  simpa using this

theorem xc_lt_of_chain {l : List Point}
    (hm : ∀ i, i + 1 < l.length → xc l i < xc l (i + 1)) :
    ∀ i j, i < j → j < l.length → xc l i < xc l j := by
  intro i j
  induction j with
  | zero => omega
  | succ j ih =>
    intro hij hj
    rcases Nat.lt_or_ge i j with h | h
    · exact lt_trans (ih h (by omega)) (hm j hj)
    · have : i = j := by omega
      subst this
      exact hm i hj

/-! Structure of a successful build. -/

theorem any_range_eq_false {m : ℕ} {P : ℕ → Prop} [DecidablePred P]
    (h : ((List.range m).any fun i => decide (P i)) = false) :
    ∀ i, i < m → ¬ P i := by
  intro i hi hP
  have : ((List.range m).any fun i => decide (P i)) = true :=
    List.any_eq_true.2 ⟨i, List.mem_range.2 hi, by simpa using hP⟩
  rw [h] at this
  exact Bool.false_ne_true this

theorem new_ok_elim {pts : List Point} {t : SplineType} {s : Spline}
    (h : Spline.new pts t = Except.ok s) :
    2 ≤ pts.length ∧
    (∀ i, i < (sortPoints pts).length - 1 → hfun (xc (sortPoints pts)) i ≠ 0) ∧
    (t = SplineType.Linear → s = buildLinear (sortPoints pts)) ∧
    (t = SplineType.Quadratic → s = buildQuadratic (sortPoints pts)) ∧
    (t = SplineType.Cubic → s = buildCubic (sortPoints pts)) := by
  simp only [Spline.new] at h
  by_cases h2 : pts.length < 2
  · rw [if_pos h2] at h
    exact absurd h (by simp)
  · rw [if_neg h2] at h
    refine ⟨by omega, ?_⟩
    by_cases hz : ((List.range ((sortPoints pts).length - 1)).any
        fun i => decide (hfun (xc (sortPoints pts)) i = 0)) = true
    · rw [if_pos hz] at h
      exact absurd h (by simp)
    · rw [if_neg hz] at h
      refine ⟨any_range_eq_false (Bool.eq_false_iff.2 hz), ?_⟩
      cases t with
      | Linear =>
        refine ⟨fun _ => by simpa using h.symm, fun hq => ?_, fun hq => ?_⟩
        · cases hq
        · cases hq
      | Quadratic =>
        refine ⟨fun hq => ?_, fun _ => by simpa using h.symm, fun hq => ?_⟩
        · cases hq
        · cases hq
      | Cubic =>
        refine ⟨fun hq => ?_, fun hq => ?_, fun _ => ?_⟩
        · cases hq
        · cases hq
        by_cases hp : ((List.range ((sortPoints pts).length - 2)).any
            fun i => decide ((fwd (xc (sortPoints pts)) (yc (sortPoints pts)) (i + 1)).1 = 0)) = true
        · rw [if_pos hp] at h
          exact absurd h (by simp)
        · rw [if_neg hp] at h
          simpa using h.symm

theorem new_ok_cubic_pivots {pts : List Point} {s : Spline}
    (h : Spline.new pts SplineType.Cubic = Except.ok s) :
    ∀ i, i < (sortPoints pts).length - 2 →
      (fwd (xc (sortPoints pts)) (yc (sortPoints pts)) (i + 1)).1 ≠ 0 := by
  simp only [Spline.new] at h
  by_cases h2 : pts.length < 2
  · rw [if_pos h2] at h
    exact absurd h (by simp)
  · rw [if_neg h2] at h
    by_cases hz : ((List.range ((sortPoints pts).length - 1)).any
        fun i => decide (hfun (xc (sortPoints pts)) i = 0)) = true
    · rw [if_pos hz] at h
      exact absurd h (by simp)
    · rw [if_neg hz] at h
      by_cases hp : ((List.range ((sortPoints pts).length - 2)).any
          fun i => decide ((fwd (xc (sortPoints pts)) (yc (sortPoints pts)) (i + 1)).1 = 0)) = true
      · rw [if_pos hp] at h
        exact absurd h (by simp)
      · exact any_range_eq_false (Bool.eq_false_iff.2 hp)

/-! The segment-selection scan. -/

theorem findSegAux_min (pts : List Point) (x : ℚ) (tgt : ℕ)
    (hstop : ¬(tgt < pts.length - 2 ∧ xc pts (tgt + 1) < x)) :
    ∀ fuel i, i ≤ tgt → tgt - i ≤ fuel →
      (∀ j, i ≤ j → j < tgt → (j < pts.length - 2 ∧ xc pts (j + 1) < x)) →
      findSegAux pts x fuel i = tgt := by
  intro fuel
  induction fuel with
  | zero =>
    intro i h1 h2 _
    have : i = tgt := by omega
    subst this
    rfl
  | succ f ih =>
    intro i h1 h2 h3
    rcases Nat.eq_or_lt_of_le h1 with rfl | hlt
    · simp only [findSegAux]
      rw [if_neg hstop]
    · have hc := h3 i le_rfl hlt
      simp only [findSegAux]
      rw [if_pos hc]
      exact ih (i + 1) hlt (by omega) (fun j hj1 hj2 => h3 j (by omega) hj2)

theorem findSegAux_le (pts : List Point) (x : ℚ) :
    ∀ fuel i, i ≤ pts.length - 2 → findSegAux pts x fuel i ≤ pts.length - 2 := by
  intro fuel
  induction fuel with
  | zero => intro i hi; exact hi
  | succ f ih =>
    intro i hi
    simp only [findSegAux]
    by_cases hc : i < pts.length - 2 ∧ xc pts (i + 1) < x
    · rw [if_pos hc]
      exact ih (i + 1) (by omega)
    · rw [if_neg hc]
      exact hi

/-! Branch analysis of `Spline::evaluate`. -/

theorem evaluate_formula (s : Spline) (x : ℚ)
    (hn : 2 ≤ s.points.length)
    (hm : ∀ i, i + 1 < s.points.length → xc s.points i < xc s.points (i + 1))
    (i : ℕ) (hi : i + 1 < s.points.length)
    (hlow : xc s.points i < x) (hhigh : x ≤ xc s.points (i + 1))
    (hne : ¬ x = xc s.points (s.points.length - 1)) :
    s.evaluate x =
      s.a_coeffs.getD i 0 +
        (if i < s.b_coeffs.length then s.b_coeffs.getD i 0 * (x - xc s.points i) else 0) +
        (if (s.spline_type = SplineType.Quadratic ∨ s.spline_type = SplineType.Cubic) ∧
            i < s.c_coeffs.length then
          s.c_coeffs.getD i 0 * (x - xc s.points i) * (x - xc s.points i) else 0) +
        (if s.spline_type = SplineType.Cubic ∧ i < s.d_coeffs.length then
          s.d_coeffs.getD i 0 * (x - xc s.points i) * (x - xc s.points i) *
            (x - xc s.points i)
        else 0) := by
  have hmono := xc_lt_of_chain hm
  have hseg : findSegAux s.points x s.points.length 0 = i := by
    apply findSegAux_min s.points x i ?_ s.points.length 0 (by omega) (by omega) ?_
    · rintro ⟨-, hc2⟩
      exact absurd hhigh (not_le.2 hc2)
    · intro j hj1 hj2
      refine ⟨by omega, ?_⟩
      rcases Nat.eq_or_lt_of_le (Nat.succ_le_of_lt hj2) with he | hlt2
      · rw [show j + 1 = i from he]; exact hlow
      · exact lt_trans (hmono (j + 1) i hlt2 (by omega)) hlow
  have hx0 : ¬ x < xc s.points 0 := by
    rcases Nat.eq_zero_or_pos i with rfl | hpos
    · exact not_lt.2 (le_of_lt hlow)
    · exact not_lt.2 (le_of_lt (lt_trans (hmono 0 i hpos (by omega)) hlow))
  have hxlast : ¬ xc s.points (s.points.length - 1) < x := by
    rcases Nat.eq_or_lt_of_le (show i + 1 ≤ s.points.length - 1 by omega) with he | hlt2
    · rw [← he]; exact not_lt.2 hhigh
    · exact not_lt.2
        (le_of_lt (lt_of_le_of_lt hhigh (hmono (i + 1) (s.points.length - 1) hlt2 (by omega))))
  simp only [Spline.evaluate]
  rw [if_neg (by omega : ¬ s.points.length = 0), if_neg (by omega : ¬ s.points.length = 1),
    hseg, if_neg hx0, if_neg hxlast, if_neg hne]

theorem eval_at_knot0 (s : Spline) (hn : 2 ≤ s.points.length)
    (hm : ∀ i, i + 1 < s.points.length → xc s.points i < xc s.points (i + 1)) :
    s.evaluate (xc s.points 0) = s.a_coeffs.getD 0 0 := by
  have hmono := xc_lt_of_chain hm
  have hseg : findSegAux s.points (xc s.points 0) s.points.length 0 = 0 := by
    apply findSegAux_min s.points _ 0 ?_ s.points.length 0 le_rfl (by omega) ?_
    · rintro ⟨-, hc2⟩
      exact absurd hc2 (not_lt.2 (le_of_lt (hm 0 (by omega))))
    · intro j _ hj
      omega
  simp only [Spline.evaluate]
  rw [if_neg (by omega : ¬ s.points.length = 0), if_neg (by omega : ¬ s.points.length = 1),
    hseg, if_neg (lt_irrefl (xc s.points 0)),
    if_neg (not_lt.2 (le_of_lt (hmono 0 (s.points.length - 1) (by omega) (by omega)))),
    if_neg (ne_of_lt (hmono 0 (s.points.length - 1) (by omega) (by omega)))]
  simp [sub_self]

theorem eval_at_last (s : Spline) (hn : 2 ≤ s.points.length)
    (hm : ∀ i, i + 1 < s.points.length → xc s.points i < xc s.points (i + 1)) :
    s.evaluate (xc s.points (s.points.length - 1)) =
      s.a_coeffs.getD (s.points.length - 1) 0 := by
  have hmono := xc_lt_of_chain hm
  simp only [Spline.evaluate]
  rw [if_neg (by omega : ¬ s.points.length = 0), if_neg (by omega : ¬ s.points.length = 1),
    if_neg (not_lt.2 (le_of_lt (hmono 0 (s.points.length - 1) (by omega) (by omega)))),
    if_neg (lt_irrefl (xc s.points (s.points.length - 1)))]
  simp

/-! Per-model right-endpoint identities of the segment polynomials. -/

theorem linB_endpoint (x y : ℕ → ℚ) (j : ℕ) (h : hfun x j ≠ 0) :
    y j + linB x y j * hfun x j = y (j + 1) := by
  field_simp [linB]

theorem quadBC_endpoint (x y : ℕ → ℚ) (j : ℕ) (h0 : hfun x 0 ≠ 0) (hj : hfun x j ≠ 0) :
    y j + (quadBC x y j).1 * hfun x j + (quadBC x y j).2 * hfun x j * hfun x j =
      y (j + 1) := by
  cases j with
  | zero =>
    simp only [quadBC]
    rw [if_neg h0]
    field_simp
  | succ i =>
    simp only [quadBC]
    rw [if_neg hj]
    field_simp
    ring

theorem cubic_endpoint (x y : ℕ → ℚ) (n j : ℕ) (hj : hfun x j ≠ 0) :
    y j + cubB x y n j * hfun x j + cInt x y n j * hfun x j * hfun x j +
      cubD x y n j * hfun x j * hfun x j * hfun x j = y (j + 1) := by
  simp only [cubB, cubD]
  field_simp
  ring

/-! Facts about the knot list of any successfully built curve. -/

theorem new_ok_points_facts {pts : List Point} {t : SplineType} {s : Spline}
    (h : Spline.new pts t = Except.ok s) :
    s.points = sortPoints pts ∧ 2 ≤ s.points.length ∧
    (∀ i, i + 1 < s.points.length → xc s.points i < xc s.points (i + 1)) ∧
    (∀ i, i < s.points.length - 1 → hfun (xc s.points) i ≠ 0) := by
  obtain ⟨h2, hz, hsL, hsQ, hsC⟩ := new_ok_elim h
  have hpts : s.points = sortPoints pts := by
    cases t with
    | Linear => rw [hsL rfl]; rfl
    | Quadratic => rw [hsQ rfl]; rfl
    | Cubic => rw [hsC rfl]; rfl
  have hlen : 2 ≤ s.points.length := by
    rw [hpts, sortPoints_length]
    omega
  have hz' : ∀ i, i < s.points.length - 1 → hfun (xc s.points) i ≠ 0 := by
    intro i hi
    rw [hpts] at hi ⊢
    exact hz i hi
  refine ⟨hpts, hlen, ?_, hz'⟩
  intro i hi
  have hle : xc s.points i ≤ xc s.points (i + 1) := by
    rw [hpts]
    rw [hpts] at hi
    exact xc_le_succ hi
  have hne := hz' i (by omega)
  simp only [hfun] at hne
  exact lt_of_le_of_ne hle (sub_ne_zero.1 hne).symm

/-- C1: for every point set that builds successfully and every model
(Linear, Quadratic, Cubic), evaluating the resulting curve at any knot's
x-coordinate returns that knot's y-coordinate, for every knot including the
first and the last. -/
theorem C1_interpolation (pts : List Point) (t : SplineType) (s : Spline)
    (h : Spline.new pts t = Except.ok s) :
    ∀ k, k < s.points.length → s.evaluate (xc s.points k) = yc s.points k := by
  obtain ⟨hpts, hlen, hm, hz⟩ := new_ok_points_facts h
  obtain ⟨h2, -, hsL, hsQ, hsC⟩ := new_ok_elim h
  have ha : ∀ j, s.a_coeffs.getD j 0 = yc s.points j := by
    intro j
    cases t with
    | Linear => rw [hsL rfl]; exact getD_map_y _ j
    | Quadratic => rw [hsQ rfl]; exact getD_map_y _ j
    | Cubic => rw [hsC rfl]; exact getD_map_y _ j
  intro k hk
  rcases Nat.eq_zero_or_pos k with rfl | hk1
  · rw [eval_at_knot0 s hlen hm, ha 0]
  · rcases Nat.eq_or_lt_of_le (Nat.succ_le_of_lt hk) with hke | hklt
    · have hk' : k = s.points.length - 1 := by omega
      subst hk'
      rw [eval_at_last s hlen hm, ha]
    · obtain ⟨j, rfl⟩ : ∃ j, k = j + 1 := ⟨k - 1, by omega⟩
      have hne : ¬ xc s.points (j + 1) = xc s.points (s.points.length - 1) :=
        ne_of_lt (xc_lt_of_chain hm (j + 1) (s.points.length - 1) (by omega) (by omega))
      rw [evaluate_formula s (xc s.points (j + 1)) hlen hm j (by omega)
        (hm j (by omega)) le_rfl hne, ha]
      have hdx : xc s.points (j + 1) - xc s.points j = hfun (xc s.points) j := rfl
      have hjlen : j < s.points.length - 1 := by omega
      have hzj := hz j hjlen
      have h0 : hfun (xc s.points) 0 ≠ 0 := hz 0 (by omega)
      rw [hpts] at hdx hjlen hzj h0
      cases t with
      | Linear =>
        rw [hsL rfl]
        simp only [buildLinear, List.length_ofFn]
        rw [if_pos hjlen, getD_ofFn _ j hjlen]
        have hc1 : ¬((SplineType.Linear = SplineType.Quadratic ∨
            SplineType.Linear = SplineType.Cubic) ∧ j < (sortPoints pts).length - 1) := by simp
        have hc2 : ¬(SplineType.Linear = SplineType.Cubic ∧
            j < (sortPoints pts).length - 1) := by simp
        rw [if_neg hc1, if_neg hc2, hdx, add_zero, add_zero]
        exact linB_endpoint (xc (sortPoints pts)) (yc (sortPoints pts)) j hzj
      | Quadratic =>
        rw [hsQ rfl]
        simp only [buildQuadratic, List.length_ofFn]
        rw [if_pos hjlen, getD_ofFn _ j hjlen]
        have hc1 : (True ∨ SplineType.Quadratic = SplineType.Cubic) ∧
            j < (sortPoints pts).length - 1 := ⟨Or.inl trivial, hjlen⟩
        have hc2 : ¬(SplineType.Quadratic = SplineType.Cubic ∧
            j < (sortPoints pts).length - 1) := by simp
        rw [if_pos hc1, getD_ofFn _ j hjlen, if_neg hc2, hdx, add_zero]
        have hq := quadBC_endpoint (xc (sortPoints pts)) (yc (sortPoints pts)) j h0 hzj
        linarith [hq]
      | Cubic =>
        rw [hsC rfl]
        simp only [buildCubic, List.length_ofFn]
        rw [if_pos hjlen, getD_ofFn _ j hjlen]
        have hc1 : (SplineType.Cubic = SplineType.Quadratic ∨ True) ∧
            j < (sortPoints pts).length - 1 := ⟨Or.inr trivial, hjlen⟩
        have hc2 : True ∧ j < (sortPoints pts).length - 1 := ⟨trivial, hjlen⟩
        rw [if_pos hc1, getD_ofFn _ j hjlen, if_pos hc2, getD_ofFn _ j hjlen, hdx]
        have hq := cubic_endpoint (xc (sortPoints pts)) (yc (sortPoints pts))
          (sortPoints pts).length j hzj
        linarith [hq]

/-! Field-level facts about successfully built curves. -/

theorem new_ok_a_coeffs {pts : List Point} {t : SplineType} {s : Spline}
    (h : Spline.new pts t = Except.ok s) :
    ∀ j, s.a_coeffs.getD j 0 = yc s.points j := by
  obtain ⟨-, -, hsL, hsQ, hsC⟩ := new_ok_elim h
  intro j
  cases t with
  | Linear => rw [hsL rfl]; exact getD_map_y _ j
  | Quadratic => rw [hsQ rfl]; exact getD_map_y _ j
  | Cubic => rw [hsC rfl]; exact getD_map_y _ j

theorem new_ok_type {pts : List Point} {t : SplineType} {s : Spline}
    (h : Spline.new pts t = Except.ok s) : s.spline_type = t := by
  obtain ⟨-, -, hsL, hsQ, hsC⟩ := new_ok_elim h
  cases t with
  | Linear => rw [hsL rfl]; rfl
  | Quadratic => rw [hsQ rfl]; rfl
  | Cubic => rw [hsC rfl]; rfl

theorem new_ok_blen {pts : List Point} {t : SplineType} {s : Spline}
    (h : Spline.new pts t = Except.ok s) :
    s.b_coeffs.length = s.points.length - 1 := by
  obtain ⟨-, -, hsL, hsQ, hsC⟩ := new_ok_elim h
  cases t with
  | Linear => rw [hsL rfl]; simp [buildLinear, List.length_ofFn]
  | Quadratic => rw [hsQ rfl]; simp [buildQuadratic, List.length_ofFn]
  | Cubic => rw [hsC rfl]; simp [buildCubic, List.length_ofFn]

/-- C2: the asymmetric boundary policy of `evaluate`: strictly below the
first knot the Linear model extrapolates with segment 0's line while
Quadratic and Cubic return the flat value `a[0]`; strictly above the last
knot the Linear model extrapolates from the last knot with the last
segment's slope while Quadratic and Cubic return the last knot's y; at
exactly the last knot's x the knot's y is returned by direct substitution. -/
theorem C2_boundary_policy (pts : List Point) (t : SplineType) (s : Spline)
    (h : Spline.new pts t = Except.ok s) :
    (∀ x, x < xc s.points 0 →
      (t = SplineType.Linear →
        s.evaluate x = s.a_coeffs.getD 0 0 + s.b_coeffs.getD 0 0 * (x - xc s.points 0)) ∧
      (t ≠ SplineType.Linear → s.evaluate x = s.a_coeffs.getD 0 0)) ∧
    (∀ x, xc s.points (s.points.length - 1) < x →
      (t = SplineType.Linear →
        s.evaluate x = yc s.points (s.points.length - 1) +
          s.b_coeffs.getD (s.points.length - 2) 0 *
            (x - xc s.points (s.points.length - 1))) ∧
      (t ≠ SplineType.Linear → s.evaluate x = yc s.points (s.points.length - 1))) ∧
    s.evaluate (xc s.points (s.points.length - 1)) =
      yc s.points (s.points.length - 1) := by
  obtain ⟨hpts, hlen, hm, hz⟩ := new_ok_points_facts h
  have htype := new_ok_type h
  have ha := new_ok_a_coeffs h
  have hblen := new_ok_blen h
  have hmono := xc_lt_of_chain hm
  refine ⟨?_, ?_, ?_⟩
  · intro x hx
    have hev : s.evaluate x =
        if s.spline_type = SplineType.Linear ∧ s.b_coeffs ≠ [] then
          s.a_coeffs.getD 0 0 + s.b_coeffs.getD 0 0 * (x - xc s.points 0)
        else s.a_coeffs.getD 0 0 := by
      simp only [Spline.evaluate]
      rw [if_neg (by omega : ¬ s.points.length = 0),
        if_neg (by omega : ¬ s.points.length = 1), if_pos hx]
    have hbne : s.b_coeffs ≠ [] := by
      intro hnil
      rw [hnil] at hblen
      simp at hblen
      omega
    constructor
    · intro ht
      rw [hev, if_pos ⟨htype.trans ht, hbne⟩]
    · intro ht
      have hcnd : ¬(s.spline_type = SplineType.Linear ∧ s.b_coeffs ≠ []) := by
        rintro ⟨hty, -⟩
        exact ht (htype.symm.trans hty)
      rw [hev, if_neg hcnd]
  · intro x hx
    have hx0 : ¬ x < xc s.points 0 :=
      not_lt.2 (le_of_lt (lt_trans (hmono 0 (s.points.length - 1) (by omega) (by omega)) hx))
    have hev : s.evaluate x =
        if s.spline_type = SplineType.Linear ∧ s.points.length - 2 < s.b_coeffs.length ∧
            xc s.points (s.points.length - 2 + 1) - xc s.points (s.points.length - 2) ≠ 0 then
          s.a_coeffs.getD (s.points.length - 2 + 1) 0 +
            s.b_coeffs.getD (s.points.length - 2) 0 *
              (x - xc s.points (s.points.length - 2 + 1))
        else s.a_coeffs.getD (s.points.length - 1) 0 := by
      simp only [Spline.evaluate]
      rw [if_neg (by omega : ¬ s.points.length = 0),
        if_neg (by omega : ¬ s.points.length = 1), if_neg hx0, if_pos hx]
    have hidx : s.points.length - 2 + 1 = s.points.length - 1 := by omega
    constructor
    · intro ht
      have hdxlast : xc s.points (s.points.length - 2 + 1) -
          xc s.points (s.points.length - 2) ≠ 0 :=
        hz (s.points.length - 2) (by omega)
      rw [hev, if_pos ⟨htype.trans ht, by omega, hdxlast⟩, hidx, ha]
    · intro ht
      have hcnd : ¬(s.spline_type = SplineType.Linear ∧
          s.points.length - 2 < s.b_coeffs.length ∧
          xc s.points (s.points.length - 2 + 1) - xc s.points (s.points.length - 2) ≠ 0) := by
        rintro ⟨hty, -, -⟩
        exact ht (htype.symm.trans hty)
      rw [hev, if_neg hcnd, ha]
  · rw [eval_at_last s hlen hm, ha]

theorem new_ok_lens {pts : List Point} {t : SplineType} {s : Spline}
    (h : Spline.new pts t = Except.ok s) :
    s.a_coeffs.length = s.points.length ∧
    s.b_coeffs.length = s.points.length - 1 ∧
    s.c_coeffs.length = s.points.length - 1 ∧
    s.d_coeffs.length = s.points.length - 1 := by
  obtain ⟨-, -, hsL, hsQ, hsC⟩ := new_ok_elim h
  cases t with
  | Linear =>
    rw [hsL rfl]
    simp [buildLinear, List.length_ofFn]
  | Quadratic =>
    rw [hsQ rfl]
    simp [buildQuadratic, List.length_ofFn]
  | Cubic =>
    rw [hsC rfl]
    simp [buildCubic, List.length_ofFn]

theorem linear_segment_value (pts : List Point) (s : Spline) (i : ℕ) (x : ℚ)
    (h : Spline.new pts SplineType.Linear = Except.ok s)
    (hi : i + 1 < s.points.length)
    (hlow : xc s.points i < x) (hhigh : x < xc s.points (i + 1)) :
    s.evaluate x =
      lineThrough (s.points.getD i default) (s.points.getD (i + 1) default) x := by
  obtain ⟨hpts, hlen, hm, hz⟩ := new_ok_points_facts h
  obtain ⟨-, -, hsL, -, -⟩ := new_ok_elim h
  have htype := new_ok_type h
  have ha := new_ok_a_coeffs h
  have hmono := xc_lt_of_chain hm
  have hne : ¬ x = xc s.points (s.points.length - 1) := by
    rcases Nat.eq_or_lt_of_le (show i + 1 ≤ s.points.length - 1 by omega) with he | hlt
    · rw [← he]; exact ne_of_lt hhigh
    · exact ne_of_lt (lt_trans hhigh (hmono (i + 1) (s.points.length - 1) hlt (by omega)))
  rw [evaluate_formula s x hlen hm i hi hlow (le_of_lt hhigh) hne, ha]
  have hblen := new_ok_blen h
  have hc1 : i < s.b_coeffs.length := by omega
  have hc2 : ¬((s.spline_type = SplineType.Quadratic ∨ s.spline_type = SplineType.Cubic) ∧
      i < s.c_coeffs.length) := by
    rintro ⟨hq | hq, -⟩ <;> rw [htype] at hq <;> cases hq
  have hc3 : ¬(s.spline_type = SplineType.Cubic ∧ i < s.d_coeffs.length) := by
    rintro ⟨hq, -⟩
    rw [htype] at hq
    cases hq
  rw [if_pos hc1, if_neg hc2, if_neg hc3, add_zero, add_zero]
  have hilen : i < (sortPoints pts).length - 1 := by
    rw [← hpts]
    omega
  have hb : s.b_coeffs.getD i 0 = linB (xc (sortPoints pts)) (yc (sortPoints pts)) i := by
    rw [hsL rfl]
    exact getD_ofFn
      (fun k : Fin ((sortPoints pts).length - 1) =>
        linB (xc (sortPoints pts)) (yc (sortPoints pts)) k) i hilen
  have hzj : hfun (xc (sortPoints pts)) i ≠ 0 := by
    rw [← hpts] at hilen ⊢
    exact hz i hilen
  rw [hb, hpts]
  rw [hpts] at hlow hhigh
  show yc (sortPoints pts) i + linB (xc (sortPoints pts)) (yc (sortPoints pts)) i *
      (x - xc (sortPoints pts) i) =
    yc (sortPoints pts) i + (yc (sortPoints pts) (i + 1) - yc (sortPoints pts) i) *
      (x - xc (sortPoints pts) i) / (xc (sortPoints pts) (i + 1) - xc (sortPoints pts) i)
  have hzj' : xc (sortPoints pts) (i + 1) - xc (sortPoints pts) i ≠ 0 := hzj
  field_simp [linB, hfun]

unseal Rat.add Rat.sub Rat.mul Rat.inv List.merge List.mergeSort in
/-- C4: with the Linear model, for every x strictly inside segment i the
curve value lies on the straight line through knots i and i+1; in
particular for the default scene knots, `evaluate (-75) = 0`. -/
theorem C4_linear (pts : List Point) (s : Spline) (i : ℕ) (x : ℚ)
    (h : Spline.new pts SplineType.Linear = Except.ok s)
    (hi : i + 1 < s.points.length)
    (hlow : xc s.points i < x) (hhigh : x < xc s.points (i + 1)) :
    s.evaluate x =
      lineThrough (s.points.getD i default) (s.points.getD (i + 1) default) x ∧
    (∀ s5 : Spline, Spline.new scenePts SplineType.Linear = Except.ok s5 →
      s5.evaluate (-75) = 0) := by
  refine ⟨linear_segment_value pts s i x h hi hlow hhigh, ?_⟩
  intro s5 h5
  have hp5 := (new_ok_points_facts h5).1
  have hlen5 : 1 + 1 < s5.points.length := by
    rw [hp5, sortPoints_length]
    decide
  have hlow5 : xc s5.points 1 < -75 := by
    rw [hp5]
    decide
  have hhigh5 : -75 < xc s5.points (1 + 1) := by
    rw [hp5]
    decide
  have hval := linear_segment_value scenePts s5 1 (-75) h5 hlen5 hlow5 hhigh5
  rw [hval, hp5]
  decide

/-- C5: fewer than 2 input points makes the build fail with
`InsufficientPoints`, for every model; with 2 or more points the build
never fails that way. -/
theorem C5_insufficient (pts : List Point) (t : SplineType) :
    (pts.length < 2 → Spline.new pts t = Except.error SplineError.InsufficientPoints) ∧
    (2 ≤ pts.length → Spline.new pts t ≠ Except.error SplineError.InsufficientPoints) := by
  constructor
  · intro h2
    simp only [Spline.new, if_pos h2]
  · intro h2
    simp only [Spline.new, if_neg (by omega : ¬ pts.length < 2)]
    by_cases hz : ((List.range ((sortPoints pts).length - 1)).any
        fun i => decide (hfun (xc (sortPoints pts)) i = 0)) = true
    · rw [if_pos hz]
      simp
    · rw [if_neg hz]
      cases t with
      | Linear => simp
      | Quadratic => simp
      | Cubic =>
        by_cases hp : ((List.range ((sortPoints pts).length - 2)).any
            fun i => decide ((fwd (xc (sortPoints pts)) (yc (sortPoints pts)) (i + 1)).1 = 0)) = true
        · rw [if_pos hp]
          simp
        · rw [if_neg hp]
          simp

/-- C6: with at least 2 points, the build fails with
`DegenerateKnotSpacing` exactly when two consecutive points of the sorted
list share an x-coordinate (and then no curve is returned, the failure
being the whole result). -/
theorem C6_degenerate (pts : List Point) (t : SplineType) (h2 : 2 ≤ pts.length) :
    Spline.new pts t = Except.error SplineError.DegenerateKnotSpacing ↔
      ∃ i, i + 1 < (sortPoints pts).length ∧
        xc (sortPoints pts) i = xc (sortPoints pts) (i + 1) := by
  have hlen : (sortPoints pts).length = pts.length := sortPoints_length pts
  simp only [Spline.new, if_neg (by omega : ¬ pts.length < 2)]
  by_cases hz : ((List.range ((sortPoints pts).length - 1)).any
      fun i => decide (hfun (xc (sortPoints pts)) i = 0)) = true
  · rw [if_pos hz]
    constructor
    · intro _
      obtain ⟨i, hmem, hdec⟩ := List.any_eq_true.1 hz
      have hi := List.mem_range.1 hmem
      have h0 : hfun (xc (sortPoints pts)) i = 0 := by simpa using hdec
      refine ⟨i, by omega, ?_⟩
      have := sub_eq_zero.1 h0
      exact this.symm
    · intro _
      rfl
  · rw [if_neg hz]
    have hnz := any_range_eq_false (Bool.eq_false_iff.2 hz)
    constructor
    · intro hcontra
      exfalso
      cases t with
      | Linear => simp at hcontra
      | Quadratic => simp at hcontra
      | Cubic =>
        by_cases hp : ((List.range ((sortPoints pts).length - 2)).any
            fun i => decide ((fwd (xc (sortPoints pts)) (yc (sortPoints pts)) (i + 1)).1 = 0)) = true
        · rw [if_pos hp] at hcontra
          simp at hcontra
        · rw [if_neg hp] at hcontra
          simp at hcontra
    · rintro ⟨i, hi, heq⟩
      exact absurd (sub_eq_zero.2 heq.symm) (hnz i (by omega))

/-- C8: on every successfully built curve the segment index chosen by the
left-to-right scan of `evaluate` never exceeds `segmentCount - 1`, so every
knot and coefficient access of the in-range branch is within the bounds of
the stored vectors; `evaluate` is a total function. -/
theorem C8_eval_safety (pts : List Point) (t : SplineType) (s : Spline)
    (h : Spline.new pts t = Except.ok s) (x : ℚ) :
    findSegAux s.points x s.points.length 0 ≤ s.points.length - 2 ∧
    findSegAux s.points x s.points.length 0 + 1 < s.points.length ∧
    findSegAux s.points x s.points.length 0 < s.a_coeffs.length ∧
    findSegAux s.points x s.points.length 0 < s.b_coeffs.length ∧
    findSegAux s.points x s.points.length 0 < s.c_coeffs.length ∧
    findSegAux s.points x s.points.length 0 < s.d_coeffs.length := by
  obtain ⟨-, hlen, -, -⟩ := new_ok_points_facts h
  obtain ⟨ha, hb, hc, hd⟩ := new_ok_lens h
  have hle := findSegAux_le s.points x s.points.length 0 (by omega)
  omega

/-- C10: a `Spline` value holding an empty point list (reachable only by
bypassing the construction check) evaluates to 0 at every input, rather
than failing. -/
theorem C10_empty_eval (t : SplineType) (a b c d : List ℚ) (x : ℚ) :
    (Spline.mk [] t a b c d).evaluate x = 0 := rfl

/-! The cubic forward sweep: definitional unfoldings and pivot positivity. -/

theorem fwd_l_def (x y : ℕ → ℚ) (i : ℕ) :
    (fwd x y (i + 1)).1 = 2 * (x (i + 2) - x i) - hfun x i * (fwd x y i).2.1 := rfl

theorem fwd_mu_def (x y : ℕ → ℚ) (i : ℕ) :
    (fwd x y (i + 1)).2.1 = hfun x (i + 1) / (fwd x y (i + 1)).1 := rfl

theorem fwd_z_def (x y : ℕ → ℚ) (i : ℕ) :
    (fwd x y (i + 1)).2.2 =
      (alphafun x y (i + 1) - hfun x i * (fwd x y i).2.2) / (fwd x y (i + 1)).1 := rfl

theorem fwd_pos (x y : ℕ → ℚ) (n : ℕ)
    (hx : ∀ i, i + 1 < n → x i < x (i + 1)) :
    ∀ i, i ≤ n - 2 →
      0 < (fwd x y i).1 ∧ 0 ≤ (fwd x y i).2.1 ∧ (fwd x y i).2.1 < 1 := by
  intro i
  induction i with
  | zero =>
    intro _
    refine ⟨?_, ?_, ?_⟩ <;> norm_num [fwd]
  | succ i ih =>
    intro hi
    obtain ⟨-, hmu0, hmu1⟩ := ih (by omega)
    have hn3 : i + 2 < n := by omega
    have hhi : 0 < hfun x i := sub_pos.2 (hx i (by omega))
    have hhi1 : 0 < hfun x (i + 1) := sub_pos.2 (hx (i + 1) hn3)
    have hspan : x (i + 2) - x i = hfun x (i + 1) + hfun x i := by
      simp only [hfun]
      ring
    have hL : 0 < 2 * (x (i + 2) - x i) - hfun x i * (fwd x y i).2.1 := by
      rw [hspan]
      nlinarith
    refine ⟨by rw [fwd_l_def]; exact hL, ?_, ?_⟩
    · rw [fwd_mu_def, fwd_l_def]
      exact div_nonneg hhi1.le hL.le
    · rw [fwd_mu_def, fwd_l_def]
      rw [div_lt_one hL, hspan]
      nlinarith

/-! The cubic backward sweep. -/

theorem cInt_last (x y : ℕ → ℚ) (n : ℕ) : cInt x y n (n - 1) = 0 := by
  simp [cInt, Nat.sub_self, cIntAux]

theorem cInt_rec (x y : ℕ → ℚ) (n j : ℕ) (hj : j + 1 ≤ n - 1) :
    cInt x y n j = (fwd x y j).2.2 - (fwd x y j).2.1 * cInt x y n (j + 1) := by
  have h1 : n - 1 - j = (n - 1 - (j + 1)) + 1 := by omega
  have h2 : n - 1 - (n - 1 - (j + 1) + 1) = j := by omega
  simp only [cInt]
  rw [h1]
  simp only [cIntAux]
  rw [h2]

theorem cInt_zero (x y : ℕ → ℚ) (n : ℕ) (hn : 2 ≤ n) : cInt x y n 0 = 0 := by
  rw [cInt_rec x y n 0 (by omega)]
  norm_num [fwd]

theorem tridiag_row (x y : ℕ → ℚ) (n k : ℕ) (hk : k + 1 ≤ n - 2)
    (hl : (fwd x y (k + 1)).1 ≠ 0) :
    hfun x k * cInt x y n k + 2 * (x (k + 2) - x k) * cInt x y n (k + 1) +
      hfun x (k + 1) * cInt x y n (k + 2) = alphafun x y (k + 1) := by
  have hrec0 : cInt x y n k = (fwd x y k).2.2 - (fwd x y k).2.1 * cInt x y n (k + 1) :=
    cInt_rec x y n k (by omega)
  have hrec1 : cInt x y n (k + 1) =
      (fwd x y (k + 1)).2.2 - (fwd x y (k + 1)).2.1 * cInt x y n (k + 2) :=
    cInt_rec x y n (k + 1) (by omega)
  have hLsplit : 2 * (x (k + 2) - x k) =
      (fwd x y (k + 1)).1 + hfun x k * (fwd x y k).2.1 := by
    rw [fwd_l_def]
    ring
  rw [hrec0, hLsplit, hrec1, fwd_mu_def, fwd_z_def]
  field_simp
  ring

/-! Algebraic continuity of the cubic segment polynomials at a shared knot. -/

theorem cubD2_step (x y : ℕ → ℚ) (n j : ℕ) (hj : hfun x j ≠ 0) :
    2 * cInt x y n j + 6 * cubD x y n j * hfun x j = 2 * cInt x y n (j + 1) := by
  simp only [cubD]
  field_simp
  ring

theorem cubD1_step (x y : ℕ → ℚ) (n j : ℕ) (hj : hfun x j ≠ 0)
    (hrow : hfun x j * cInt x y n j +
      2 * (x (j + 2) - x j) * cInt x y n (j + 1) +
      hfun x (j + 1) * cInt x y n (j + 2) = alphafun x y (j + 1)) :
    cubB x y n j + 2 * cInt x y n j * hfun x j + 3 * cubD x y n j * hfun x j ^ 2 =
      cubB x y n (j + 1) := by
  have hspan : x (j + 2) - x j = hfun x (j + 1) + hfun x j := by
    simp only [hfun]
    ring
  rw [hspan] at hrow
  have hd : (y (j + 1 + 1) - y (j + 1)) / hfun x (j + 1) =
      alphafun x y (j + 1) / 3 + (y (j + 1) - y j) / hfun x j := by
    simp only [alphafun, Nat.add_sub_cancel]
    ring
  simp only [cubB, cubD]
  rw [hd, ← hrow]
  field_simp
  ring

/-- C7: when the sorted x-coordinates are strictly increasing, every pivot
`l[i]` of the cubic forward sweep is strictly positive, so the
`SingularSystem` failure is unreachable. -/
theorem C7_no_singular (pts : List Point)
    (hx : ∀ i, i + 1 < (sortPoints pts).length →
      xc (sortPoints pts) i < xc (sortPoints pts) (i + 1)) :
    (∀ i, i < (sortPoints pts).length - 2 →
      0 < (fwd (xc (sortPoints pts)) (yc (sortPoints pts)) (i + 1)).1) ∧
    Spline.new pts SplineType.Cubic ≠ Except.error SplineError.SingularSystem := by
  have hpos := fwd_pos (xc (sortPoints pts)) (yc (sortPoints pts))
    (sortPoints pts).length hx
  have hpiv : ∀ i, i < (sortPoints pts).length - 2 →
      0 < (fwd (xc (sortPoints pts)) (yc (sortPoints pts)) (i + 1)).1 := by
    intro i hi
    exact (hpos (i + 1) (by omega)).1
  refine ⟨hpiv, ?_⟩
  simp only [Spline.new]
  by_cases h2 : pts.length < 2
  · rw [if_pos h2]
    simp
  · rw [if_neg h2]
    by_cases hz : ((List.range ((sortPoints pts).length - 1)).any
        fun i => decide (hfun (xc (sortPoints pts)) i = 0)) = true
    · rw [if_pos hz]
      simp
    · rw [if_neg hz]
      by_cases hp : ((List.range ((sortPoints pts).length - 2)).any
          fun i => decide ((fwd (xc (sortPoints pts)) (yc (sortPoints pts)) (i + 1)).1 = 0)) = true
      · exfalso
        obtain ⟨i, hmem, hdec⟩ := List.any_eq_true.1 hp
        have hi := List.mem_range.1 hmem
        have h0 : (fwd (xc (sortPoints pts)) (yc (sortPoints pts)) (i + 1)).1 = 0 := by
          simpa using hdec
        exact absurd h0 (ne_of_gt (hpiv i hi))
      · rw [if_neg hp]
        simp

/-- C3: for every successfully built Cubic curve the segment polynomials
agree in value, first and second derivative at every interior knot, and the
second derivative vanishes at the first knot (segment 0) and at the last
knot (last segment): the natural boundary conditions. -/
theorem C3_cubic_c2 (pts : List Point) (s : Spline)
    (h : Spline.new pts SplineType.Cubic = Except.ok s) :
    (∀ j, j + 2 < s.points.length →
      segPoly s j (xc s.points (j + 1)) = segPoly s (j + 1) (xc s.points (j + 1)) ∧
      segPolyD1 s j (xc s.points (j + 1)) = segPolyD1 s (j + 1) (xc s.points (j + 1)) ∧
      segPolyD2 s j (xc s.points (j + 1)) = segPolyD2 s (j + 1) (xc s.points (j + 1))) ∧
    segPolyD2 s 0 (xc s.points 0) = 0 ∧
    segPolyD2 s (s.points.length - 2) (xc s.points (s.points.length - 1)) = 0 := by
  obtain ⟨hpts, hlen, hm, hz⟩ := new_ok_points_facts h
  obtain ⟨-, -, -, -, hsC⟩ := new_ok_elim h
  have hpiv := new_ok_cubic_pivots h
  have ha := new_ok_a_coeffs h
  have hz' := hz
  rw [hpts] at hz'
  have hn : s.points.length = (sortPoints pts).length := by rw [hpts]
  have hb : ∀ j, j < (sortPoints pts).length - 1 → s.b_coeffs.getD j 0 =
      cubB (xc (sortPoints pts)) (yc (sortPoints pts)) (sortPoints pts).length j := by
    intro j hj
    rw [hsC rfl]
    exact getD_ofFn (fun k : Fin ((sortPoints pts).length - 1) =>
      cubB (xc (sortPoints pts)) (yc (sortPoints pts)) (sortPoints pts).length k) j hj
  have hcc : ∀ j, j < (sortPoints pts).length - 1 → s.c_coeffs.getD j 0 =
      cInt (xc (sortPoints pts)) (yc (sortPoints pts)) (sortPoints pts).length j := by
    intro j hj
    rw [hsC rfl]
    exact getD_ofFn (fun k : Fin ((sortPoints pts).length - 1) =>
      cInt (xc (sortPoints pts)) (yc (sortPoints pts)) (sortPoints pts).length k) j hj
  have hd : ∀ j, j < (sortPoints pts).length - 1 → s.d_coeffs.getD j 0 =
      cubD (xc (sortPoints pts)) (yc (sortPoints pts)) (sortPoints pts).length j := by
    intro j hj
    rw [hsC rfl]
    exact getD_ofFn (fun k : Fin ((sortPoints pts).length - 1) =>
      cubD (xc (sortPoints pts)) (yc (sortPoints pts)) (sortPoints pts).length k) j hj
  have hay : ∀ j, s.a_coeffs.getD j 0 = yc (sortPoints pts) j := by
    intro j
    rw [ha j, hpts]
  refine ⟨?_, ?_, ?_⟩
  · intro j hj2
    have hj1 : j < (sortPoints pts).length - 1 := by omega
    have hj1' : j + 1 < (sortPoints pts).length - 1 := by omega
    have hzj := hz' j hj1
    constructor
    · have he := cubic_endpoint (xc (sortPoints pts)) (yc (sortPoints pts))
        (sortPoints pts).length j hzj
      simp only [segPoly]
      rw [hay, hay, hb j hj1, hb (j + 1) hj1', hcc j hj1, hcc (j + 1) hj1',
        hd j hj1, hd (j + 1) hj1', hpts]
      have hdx : xc (sortPoints pts) (j + 1) - xc (sortPoints pts) j =
          hfun (xc (sortPoints pts)) j := rfl
      rw [hdx]
      linear_combination he
    constructor
    · have hrow := tridiag_row (xc (sortPoints pts)) (yc (sortPoints pts))
        (sortPoints pts).length j (by omega) (ne_of_gt ((fwd_pos (xc (sortPoints pts))
          (yc (sortPoints pts)) (sortPoints pts).length
          (by rw [← hpts]; exact hm) (j + 1) (by omega)).1))
      have hstep := cubD1_step (xc (sortPoints pts)) (yc (sortPoints pts))
        (sortPoints pts).length j hzj hrow
      simp only [segPolyD1]
      rw [hb j hj1, hb (j + 1) hj1', hcc j hj1, hcc (j + 1) hj1',
        hd j hj1, hd (j + 1) hj1', hpts]
      have hdx : xc (sortPoints pts) (j + 1) - xc (sortPoints pts) j =
          hfun (xc (sortPoints pts)) j := rfl
      rw [hdx]
      linear_combination hstep
    · have hstep := cubD2_step (xc (sortPoints pts)) (yc (sortPoints pts))
        (sortPoints pts).length j hzj
      simp only [segPolyD2]
      rw [hcc j hj1, hcc (j + 1) hj1', hd j hj1, hd (j + 1) hj1', hpts]
      have hdx : xc (sortPoints pts) (j + 1) - xc (sortPoints pts) j =
          hfun (xc (sortPoints pts)) j := rfl
      rw [hdx]
      linear_combination hstep
  · have h00 : (0 : ℕ) < (sortPoints pts).length - 1 := by omega
    have h0 := cInt_zero (xc (sortPoints pts)) (yc (sortPoints pts))
      (sortPoints pts).length (by omega)
    simp only [segPolyD2]
    rw [hcc 0 h00, hd 0 h00]
    linear_combination 2 * h0
  · have hj1 : (sortPoints pts).length - 2 < (sortPoints pts).length - 1 := by omega
    have hidx : (sortPoints pts).length - 2 + 1 = (sortPoints pts).length - 1 := by omega
    have hzlast : hfun (xc (sortPoints pts)) ((sortPoints pts).length - 2) ≠ 0 :=
      hz' ((sortPoints pts).length - 2) (by omega)
    have hstep := cubD2_step (xc (sortPoints pts)) (yc (sortPoints pts))
      (sortPoints pts).length ((sortPoints pts).length - 2) hzlast
    rw [hidx, cInt_last] at hstep
    simp only [segPolyD2]
    rw [hn, hcc ((sortPoints pts).length - 2) hj1, hd ((sortPoints pts).length - 2) hj1,
      hpts]
    have hdx : xc (sortPoints pts) ((sortPoints pts).length - 1) -
        xc (sortPoints pts) ((sortPoints pts).length - 2) =
        hfun (xc (sortPoints pts)) ((sortPoints pts).length - 2) := by
      simp only [hfun, hidx]
    rw [hdx]
    linear_combination hstep

/-! Uniqueness of the sorted order when all x-coordinates are distinct. -/

theorem sorted_perm_eq : ∀ l1 l2 : List Point, l1.Perm l2 →
    l1.Pairwise (fun a b => a.x ≤ b.x) → l2.Pairwise (fun a b => a.x ≤ b.x) →
    l1.Pairwise (fun a b => a.x ≠ b.x) → l1 = l2 := by
  intro l1
  induction l1 with
  | nil =>
    intro l2 hp _ _ _
    exact hp.nil_eq
  | cons a t1 ih =>
    intro l2 hp hs1 hs2 hd1
    cases l2 with
    | nil =>
      have := hp.length_eq
      simp at this
    | cons b t2 =>
      by_cases hab : a = b
      · subst hab
        have hp' := hp.cons_inv
        rw [ih t2 hp' (List.Pairwise.of_cons hs1) (List.Pairwise.of_cons hs2)
          (List.Pairwise.of_cons hd1)]
      · exfalso
        have hamem : a ∈ b :: t2 := hp.mem_iff.1 (List.mem_cons_self a t1)
        have hbmem : b ∈ a :: t1 := hp.mem_iff.2 (List.mem_cons_self b t2)
        have ha2 : a ∈ t2 := by
          rcases List.mem_cons.1 hamem with he | hm
          · exact absurd he hab
          · exact hm
        have hb1 : b ∈ t1 := by
          rcases List.mem_cons.1 hbmem with he | hm
          · exact absurd he.symm hab
          · exact hm
        have h1 : a.x ≤ b.x := (List.pairwise_cons.1 hs1).1 b hb1
        have h2 : b.x ≤ a.x := (List.pairwise_cons.1 hs2).1 a ha2
        have h3 : a.x ≠ b.x := (List.pairwise_cons.1 hd1).1 b hb1
        exact h3 (le_antisymm h1 h2)

theorem sortPoints_perm_invariant (l1 l2 : List Point) (hp : l2.Perm l1)
    (hd : l1.Pairwise (fun a b => a.x ≠ b.x)) :
    sortPoints l1 = sortPoints l2 := by
  apply sorted_perm_eq
  · exact (sortPoints_perm l1).trans (hp.symm.trans (sortPoints_perm l2).symm)
  · exact sortPoints_pairwise_le l1
  · exact sortPoints_pairwise_le l2
  · exact ((sortPoints_perm l1).pairwise_iff (fun h => Ne.symm h)).2 hd

theorem new_perm_eq (l1 l2 : List Point) (t : SplineType) (hp : l2.Perm l1)
    (hd : l1.Pairwise (fun a b => a.x ≠ b.x)) :
    Spline.new l1 t = Spline.new l2 t := by
  have hsort := sortPoints_perm_invariant l1 l2 hp hd
  have hlen : l1.length = l2.length := hp.length_eq.symm
  simp only [Spline.new, hsort, hlen]

unseal Rat.add Rat.sub Rat.mul Rat.inv List.merge List.mergeSort in
/-- C9: for a point set with pairwise-distinct x-coordinates, building from
any permutation of it yields a curve with the same evaluate function
(construction sorts internally); in particular any ordering of
`[(0,5),(-10,1),(10,9)]` gives `evaluate (-10) = 1` and `evaluate 10 = 9`
for every model. -/
theorem C9_perm_invariance (l1 l2 : List Point) (t : SplineType) (hp : l2.Perm l1)
    (hd : l1.Pairwise (fun a b => a.x ≠ b.x)) (h2 : 2 ≤ l1.length) :
    (∀ s1 s2, Spline.new l1 t = Except.ok s1 → Spline.new l2 t = Except.ok s2 →
      ∀ x, s1.evaluate x = s2.evaluate x) ∧
    (∀ pts s, pts.Perm scene3 → Spline.new pts t = Except.ok s →
      s.evaluate (-10) = 1 ∧ s.evaluate 10 = 9) := by
  constructor
  · intro s1 s2 h1 h2' x
    have hok : (Except.ok s1 : Except SplineError Spline) = Except.ok s2 := by
      rw [← h1, ← h2', new_perm_eq l1 l2 t hp hd]
    have hss : s1 = s2 := Except.ok.inj hok
    rw [hss]
  · intro pts s hperm hok
    have hd3 : scene3.Pairwise (fun a b => a.x ≠ b.x) := by decide
    have heq := new_perm_eq scene3 pts t hperm hd3
    rw [← heq] at hok
    cases t with
    | Linear =>
      have hs : s = getOk (Spline.new scene3 SplineType.Linear) := by
        rw [hok]
        rfl
      subst hs
      exact ⟨by decide, by decide⟩
    | Quadratic =>
      have hs : s = getOk (Spline.new scene3 SplineType.Quadratic) := by
        rw [hok]
        rfl
      subst hs
      exact ⟨by decide, by decide⟩
    | Cubic =>
      have hs : s = getOk (Spline.new scene3 SplineType.Cubic) := by
        rw [hok]
        rfl
      subst hs
      exact ⟨by decide, by decide⟩

/-! Concrete witnesses. -/

unseal Rat.add Rat.sub Rat.mul Rat.inv List.merge List.mergeSort in
theorem C1_interpolation_witness :
    Spline.new scenePts SplineType.Cubic = Except.ok sceneCubic ∧
    sceneCubic.evaluate 0 = -100 := by
  have hok : Spline.new scenePts SplineType.Cubic = Except.ok sceneCubic := by decide
  refine ⟨hok, ?_⟩
  have h := C1_interpolation scenePts SplineType.Cubic sceneCubic hok 2 (by decide)
  have hx : xc sceneCubic.points 2 = 0 := by decide
  have hy : yc sceneCubic.points 2 = -100 := by decide
  rw [hx, hy] at h
  exact h

unseal Rat.add Rat.sub Rat.mul Rat.inv List.merge List.mergeSort in
theorem C2_boundary_policy_witness :
    sceneCubic.evaluate 400 = yc sceneCubic.points (sceneCubic.points.length - 1) ∧
    sceneCubic.evaluate (xc sceneCubic.points (sceneCubic.points.length - 1)) =
      yc sceneCubic.points (sceneCubic.points.length - 1) := by
  have hok : Spline.new scenePts SplineType.Cubic = Except.ok sceneCubic := by decide
  have h := C2_boundary_policy scenePts SplineType.Cubic sceneCubic hok
  exact ⟨(h.2.1 400 (by decide)).2 (by decide), h.2.2⟩

unseal Rat.add Rat.sub Rat.mul Rat.inv List.merge List.mergeSort in
theorem C3_cubic_c2_witness :
    segPolyD2 sceneCubic 0 (xc sceneCubic.points 0) = 0 ∧
    segPoly sceneCubic 1 (xc sceneCubic.points 2) =
      segPoly sceneCubic 2 (xc sceneCubic.points 2) := by
  have hok : Spline.new scenePts SplineType.Cubic = Except.ok sceneCubic := by decide
  have h := C3_cubic_c2 scenePts sceneCubic hok
  exact ⟨h.2.1, (h.1 1 (by decide)).1⟩

unseal Rat.add Rat.sub Rat.mul Rat.inv List.merge List.mergeSort in
theorem C4_linear_witness :
    sceneLinear.evaluate (-75) =
      lineThrough (sceneLinear.points.getD 1 default)
        (sceneLinear.points.getD 2 default) (-75) ∧
    sceneLinear.evaluate (-75) = 0 := by
  have hok : Spline.new scenePts SplineType.Linear = Except.ok sceneLinear := by decide
  have h := C4_linear scenePts sceneLinear 1 (-75) hok (by decide) (by decide) (by decide)
  exact ⟨h.1, h.2 sceneLinear hok⟩

theorem C5_insufficient_witness :
    Spline.new [] SplineType.Linear = Except.error SplineError.InsufficientPoints ∧
    Spline.new scene3 SplineType.Linear ≠ Except.error SplineError.InsufficientPoints :=
  ⟨(C5_insufficient [] SplineType.Linear).1 (by decide),
    (C5_insufficient scene3 SplineType.Linear).2 (by decide)⟩

unseal Rat.add Rat.sub Rat.mul Rat.inv List.merge List.mergeSort in
theorem C6_degenerate_witness :
    Spline.new [Point.new 0 1, Point.new 0 2] SplineType.Cubic =
      Except.error SplineError.DegenerateKnotSpacing :=
  (C6_degenerate [Point.new 0 1, Point.new 0 2] SplineType.Cubic (by decide)).2
    ⟨0, by decide, by decide⟩

unseal Rat.add Rat.sub Rat.mul Rat.inv List.merge List.mergeSort in
theorem C7_no_singular_witness :
    Spline.new scenePts SplineType.Cubic ≠ Except.error SplineError.SingularSystem := by
  have hlen : (sortPoints scenePts).length = 5 := by decide
  have hb : ∀ i, i < 4 →
      xc (sortPoints scenePts) i < xc (sortPoints scenePts) (i + 1) := by decide
  exact (C7_no_singular scenePts (fun i hi => hb i (by omega))).2

unseal Rat.add Rat.sub Rat.mul Rat.inv List.merge List.mergeSort in
theorem C8_eval_safety_witness :
    findSegAux sceneCubic.points 1000 sceneCubic.points.length 0 ≤
      sceneCubic.points.length - 2 := by
  have hok : Spline.new scenePts SplineType.Cubic = Except.ok sceneCubic := by decide
  exact (C8_eval_safety scenePts SplineType.Cubic sceneCubic hok 1000).1

unseal Rat.add Rat.sub Rat.mul Rat.inv List.merge List.mergeSort in
theorem C9_perm_invariance_witness :
    (getOk (Spline.new [Point.new (-10) 1, Point.new 0 5, Point.new 10 9]
      SplineType.Cubic)).evaluate (-10) = 1 := by
  have hok : Spline.new [Point.new (-10) 1, Point.new 0 5, Point.new 10 9]
      SplineType.Cubic = Except.ok (getOk (Spline.new
      [Point.new (-10) 1, Point.new 0 5, Point.new 10 9] SplineType.Cubic)) := by decide
  have h := (C9_perm_invariance scene3 [Point.new (-10) 1, Point.new 0 5, Point.new 10 9]
    SplineType.Cubic (by decide) (by decide) (by decide)).2
    [Point.new (-10) 1, Point.new 0 5, Point.new 10 9] _ (by decide) hok
  exact h.1
